import Mathlib

/-!
Verification of the `diff` forward-mode automatic differentiation library
(src/diff.h: eager `AD<N>` dual numbers; src/expr.h: lazy expression
templates).  The C++ `double` scalars are modelled by an arbitrary field
`K`; concrete evaluations instantiate `K := ℚ`, and the claims about
IEEE domain failures of `log`/`pow` use an `Option ℝ` model where `none`
stands for a non-real result (NaN / infinity).
-/

namespace DiffAD

/-- Eager forward-mode AD variable `diff::AD<N>` (src/diff.h lines 7-121):
a value `x_` and a derivative array `dx_` of length `N`. -/
@[ext]
structure AD (K : Type) (N : ℕ) where
  x : K
  dx : Fin N → K

variable {K : Type} [Field K] {N : ℕ}

/-- The constructor `AD(double x)` (src/diff.h line 19): value set to `x`,
gradient zeroed by `zero()`. -/
def AD.ofScalar (s : K) : AD K N := ⟨s, fun _ => 0⟩

/-- `AD::diff(unsigned i)` (src/diff.h lines 25-29) at an in-range index:
`zero()` zeroes the whole array, then `dx_[i] = 1`. -/
def AD.diff (a : AD K N) (i : Fin N) : AD K N :=
  ⟨a.x, Function.update (fun _ => 0) i 1⟩

/-- `AD::operator=(double)` (src/diff.h lines 39-44): `x_ = other` then
`zero()`; returns the receiver, whose new state this def yields. -/
def AD.assignScalar (_a : AD K N) (s : K) : AD K N := ⟨s, fun _ => 0⟩

/-- `AD::operator+=(double)` (src/diff.h lines 52-56): only `x_ += other`;
the derivative array is untouched. -/
def AD.addAssignS (a : AD K N) (s : K) : AD K N := ⟨a.x + s, a.dx⟩

/-- `AD::operator-=(double)` (src/diff.h lines 66-70): only `x_ -= other`;
the derivative array is untouched. -/
def AD.subAssignS (a : AD K N) (s : K) : AD K N := ⟨a.x - s, a.dx⟩

/-- `AD::operator*=(AD)` (src/diff.h lines 88-93): `x_ *= other.x_` happens
BEFORE the loop, so the loop body `dx_[i] = dx_[i]*other.x_ + x_*other.dx_[i]`
reads the already-updated `x_` (= old x · other.x); the C++ function also
ends without a `return` statement. -/
def AD.mulAssign (a b : AD K N) : AD K N :=
  ⟨a.x * b.x, fun i => a.dx i * b.x + (a.x * b.x) * b.dx i⟩

/-- `AD::operator/=(AD)` (src/diff.h lines 103-108): `x_ /= other.x_` happens
BEFORE the loop, so the loop body
`dx_[i] = (dx_[i]*other.x_ - x_*other.dx_[i]) / (other.x_*other.x_)`
reads the already-updated `x_` (= old x / other.x); the C++ function also
ends without a `return` statement. -/
def AD.divAssign (a b : AD K N) : AD K N :=
  ⟨a.x / b.x, fun i => (a.dx i * b.x - (a.x / b.x) * b.dx i) / (b.x * b.x)⟩

/- Free binary operators of src/diff.h (lines 127-257). Suffix `DD` =
(AD, AD), `SD` = (double, AD), `DS` = (AD, double), matching the three
overloads of each operator. -/

/-- `operator+(double, AD)` (src/diff.h lines 128-136). -/
def AD.addSD (L : K) (R : AD K N) : AD K N := ⟨L + R.x, fun i => R.dx i⟩

/-- `operator+(AD, double)` (src/diff.h lines 139-147). -/
def AD.addDS (L : AD K N) (R : K) : AD K N := ⟨L.x + R, fun i => L.dx i⟩

/-- `operator+(AD, AD)` (src/diff.h lines 150-158). -/
def AD.addDD (L R : AD K N) : AD K N := ⟨L.x + R.x, fun i => L.dx i + R.dx i⟩

/-- `operator-(double, AD)` (src/diff.h lines 161-169). -/
def AD.subSD (L : K) (R : AD K N) : AD K N := ⟨L - R.x, fun i => -R.dx i⟩

/-- `operator-(AD, double)` (src/diff.h lines 172-180). -/
def AD.subDS (L : AD K N) (R : K) : AD K N := ⟨L.x - R, fun i => L.dx i⟩

/-- `operator-(AD, AD)` (src/diff.h lines 183-191). -/
def AD.subDD (L R : AD K N) : AD K N := ⟨L.x - R.x, fun i => L.dx i - R.dx i⟩

/-- `operator*(double, AD)` (src/diff.h lines 194-202). -/
def AD.mulSD (L : K) (R : AD K N) : AD K N := ⟨L * R.x, fun i => L * R.dx i⟩

/-- `operator*(AD, double)` (src/diff.h lines 205-213). -/
def AD.mulDS (L : AD K N) (R : K) : AD K N := ⟨L.x * R, fun i => L.dx i * R⟩

/-- `operator*(AD, AD)` (src/diff.h lines 216-224): product rule over the
operands' own (pre-existing) values. -/
def AD.mulDD (L R : AD K N) : AD K N :=
  ⟨L.x * R.x, fun i => L.dx i * R.x + L.x * R.dx i⟩

/-- `operator/(double, AD)` (src/diff.h lines 227-235). -/
def AD.divSD (L : K) (R : AD K N) : AD K N :=
  ⟨L / R.x, fun i => (-L * R.dx i) / (R.x * R.x)⟩

/-- `operator/(AD, double)` (src/diff.h lines 238-246). -/
def AD.divDS (L : AD K N) (R : K) : AD K N := ⟨L.x / R, fun i => L.dx i / R⟩

/-- `operator/(AD, AD)` (src/diff.h lines 249-257): quotient rule over the
operands' own (pre-existing) values. -/
def AD.divDD (L R : AD K N) : AD K N :=
  ⟨L.x / R.x, fun i => (L.dx i * R.x - L.x * R.dx i) / (R.x * R.x)⟩

/-- Modelled from the spec: the demo driver applies an eager `exp` to
`AD<N>` values, but no such overload is under src/ (src/diff.h has only
+, -, *, /).  Spec section 4.2 gives the rule value = e^(u.value),
derivative(i) = u.derivative(i)·e^(u.value); the transcendental `exp` on
scalars is the abstract function `E`. -/
def AD.expE (E : K → K) (a : AD K N) : AD K N := ⟨E a.x, fun i => a.dx i * E a.x⟩

/-- Lazy expression trees of src/expr.h.  `const` is `ConstExpr`
(lines 23-39), `leaf` is a `ValExpr` operand holding a stored AD value
(line 44: the value, not a reference, is stored), and the binary/unary
constructors are `AddExpr`, `SubExpr`, `MulExpr`, `DivExpr`, `ExpExpr`
built by the overloaded operators. -/
inductive Expr (K : Type) (N : ℕ) where
  | const : K → Expr K N
  | leaf : AD K N → Expr K N
  | add : Expr K N → Expr K N → Expr K N
  | sub : Expr K N → Expr K N → Expr K N
  | mul : Expr K N → Expr K N → Expr K N
  | div : Expr K N → Expr K N → Expr K N
  | exp : Expr K N → Expr K N

/-- The `val()` methods of the expression nodes (src/expr.h lines 31-34,
75-78, 113-116, 140-143, 167-170, 195-198, 220-223); `std::exp` is the
abstract scalar function `E`. -/
def Expr.val (E : K → K) : Expr K N → K
  | const c => c
  | leaf a => a.x
  | add l r => l.val E + r.val E
  | sub l r => l.val E - r.val E
  | mul l r => l.val E * r.val E
  | div l r => l.val E / r.val E
  | exp u => E (u.val E)

/-- The `dx(i)` methods of the expression nodes (src/expr.h lines 35-38,
79-82, 117-120, 144-147, 171-175, 199-202, 224-227). -/
def Expr.dx (E : K → K) : Expr K N → Fin N → K
  | const _, _ => 0
  | leaf a, i => a.dx i
  | add l r, i => l.dx E i + r.dx E i
  | sub l r, i => l.dx E i - r.dx E i
  | mul l r, i => l.dx E i * r.val E + l.val E * r.dx E i
  | div l r, i => (l.dx E i * r.val E - l.val E * r.dx E i) / (r.val E * r.val E)
  | exp u, i => u.dx E i * E (u.val E)

/-- The eager evaluation of the same expression: constants become
`AD(double)` values, leaves are the AD operands themselves, and each node
becomes the corresponding eager src/diff.h operator applied to the already
materialized sub-results (with [[AD.expE]] for `exp`). -/
def Expr.eagerEval (E : K → K) : Expr K N → AD K N
  | const c => AD.ofScalar c
  | leaf a => a
  | add l r => AD.addDD (l.eagerEval E) (r.eagerEval E)
  | sub l r => AD.subDD (l.eagerEval E) (r.eagerEval E)
  | mul l r => AD.mulDD (l.eagerEval E) (r.eagerEval E)
  | div l r => AD.divDD (l.eagerEval E) (r.eagerEval E)
  | exp u => AD.expE E (u.eagerEval E)

/-- One loop step of `ValExpr::assign` (src/expr.h lines 97-98):
`this->dx(i) = r.dx(i)`. -/
def ValExpr.assignStep (E : K → K) (r : Expr K N) (acc : AD K N) (i : Fin N) :
    AD K N :=
  ⟨acc.x, Function.update acc.dx i (r.dx E i)⟩

/-- `ValExpr::assign` (src/expr.h lines 93-99), the materialization that runs
when an expression is bound to a `ValExpr` by construction or assignment:
first `this->val() = r.val()`, then a loop over i = 0..N-1 writing each
`this->dx(i) = r.dx(i)` into the stored AD value `t`. -/
def ValExpr.assign (E : K → K) (t : AD K N) (r : Expr K N) : AD K N :=
  (List.finRange N).foldl (ValExpr.assignStep E r) ⟨r.val E, t.dx⟩

/-- Flat-memory model of `AD<N>` for the unchecked indexing of `diff` and
`dx`: the derivative array together with whatever lies beyond it is a total
memory `mem : ℕ → ℚ`; cells `≥ N` are outside the array (an access to them
is undefined behaviour in C++, and the code performs no bounds check before
indexing). -/
structure ADmem (N : ℕ) where
  x : ℚ
  mem : ℕ → ℚ

/-- `AD::diff(unsigned i)` (src/diff.h lines 25-29) on the flat-memory
model, for an arbitrary (possibly out-of-range) index: `zero()` zeroes
cells 0..N-1, then `dx_[i] = 1` writes cell `i`, checked nowhere. -/
def ADmem.diff (a : ADmem N) (i : ℕ) : ADmem N :=
  ⟨a.x, fun j => if j = i then 1 else if j < N then 0 else a.mem j⟩

/-- `AD::dx(unsigned i)` (src/diff.h lines 34-37): an unchecked read of
cell `i`. -/
def ADmem.dx (a : ADmem N) (i : ℕ) : ℚ := a.mem i

/- IEEE-failure model of C++ `double` computations for the `log`/`pow`
nodes: a value is `some r` when the computation produced the real `r`, and
`none` when it produced a non-real (NaN or infinity, e.g. the logarithm of
a non-positive number).  Arithmetic propagates `none`, as NaN does. -/

/-- IEEE addition: NaN propagates. -/
def fadd (a b : Option ℝ) : Option ℝ := a.bind fun u => b.map fun v => u + v

/-- IEEE subtraction: NaN propagates. -/
def fsub (a b : Option ℝ) : Option ℝ := a.bind fun u => b.map fun v => u - v

/-- IEEE multiplication: NaN propagates (also through a zero factor:
0 · NaN = NaN). -/
def fmul (a b : Option ℝ) : Option ℝ := a.bind fun u => b.map fun v => u * v

/-- `std::log` (used by src/expr.h line 272): a real result only for a
positive argument; log of 0 is -infinity and log of a negative number is
NaN, both non-real. -/
noncomputable def flog (a : Option ℝ) : Option ℝ :=
  a.bind fun u => if 0 < u then some (Real.log u) else none

/-- `std::pow` (used by src/expr.h lines 272-273): a real result for a
positive base, for base 0 with positive exponent, and for a negative base
with integer exponent; NaN (or infinity) otherwise. -/
noncomputable def fpow (a b : Option ℝ) : Option ℝ :=
  a.bind fun u => b.bind fun v =>
    if 0 < u then some (Real.rpow u v)
    else if u = 0 then (if 0 < v then some 0 else none)
    else @ite _ (∃ n : ℤ, (n : ℝ) = v) (Classical.propDecidable _)
      (some (Real.rpow u v)) none

/-- `PowExpr::dx(i)` (src/expr.h lines 270-274) in the IEEE-failure model,
with the operands' evaluations as inputs:
`r_.dx(i) * std::log(l_.val()) * std::pow(l_.val(), r_.val()) +
 r_.val() * l_.dx(i) * std::pow(l_.val(), r_.val() - 1.0)`.
The logarithm term is computed unconditionally. -/
noncomputable def PowExpr.dxFP (lval ldx rval rdx : Option ℝ) : Option ℝ :=
  fadd (fmul (fmul rdx (flog lval)) (fpow lval rval))
    (fmul (fmul rval ldx) (fpow lval (fsub rval (some 1))))

/-- C7: for every dual number, every valid index `i` and every prior
gradient contents, `diff i` leaves `derivative(i) = 1` and
`derivative(j) = 0` for `j ≠ i`, leaves the value unchanged, and the reset
is unconditional (the statement holds for arbitrary prior state `a`). -/
theorem c7_seed_resets_unconditionally {K : Type} [Field K] {N : ℕ}
    (a : AD K N) (i : Fin N) :
    (a.diff i).x = a.x ∧
      ∀ j : Fin N, (a.diff i).dx j = if j = i then 1 else 0 := by
  refine ⟨rfl, fun j => ?_⟩
  simp [AD.diff, Function.update_apply]

/-- C7 witness: seeding index 0 of a dimension-2 dual number with dirty
gradient `[5, 7]` and value 9 keeps the value and yields gradient
`[1, 0]`. -/
theorem c7_seed_witness :
    ((⟨9, ![5, 7]⟩ : AD ℚ 2).diff 0).x = 9 ∧
      (((⟨9, ![5, 7]⟩ : AD ℚ 2).diff 0).dx 0 = 1 ∧
        ((⟨9, ![5, 7]⟩ : AD ℚ 2).diff 0).dx 1 = 0) :=
  ⟨(c7_seed_resets_unconditionally ⟨9, ![5, 7]⟩ 0).1,
    by rw [(c7_seed_resets_unconditionally (⟨9, ![5, 7]⟩ : AD ℚ 2) 0).2 0]; simp,
    by rw [(c7_seed_resets_unconditionally (⟨9, ![5, 7]⟩ : AD ℚ 2) 0).2 1]; simp⟩

/-- C9: assigning a plain scalar `s` to a dual number sets the value to `s`
and zeroes every derivative entry; in particular a previously seeded
variable becomes indistinguishable from a fresh `AD(s)`. -/
theorem c9_scalar_assignment_resets_gradient {K : Type} [Field K] {N : ℕ}
    (a : AD K N) (s : K) :
    ((a.assignScalar s).x = s ∧ ∀ j : Fin N, (a.assignScalar s).dx j = 0) ∧
      ∀ i : Fin N, (a.diff i).assignScalar s = AD.ofScalar s :=
  ⟨⟨rfl, fun _ => rfl⟩, fun _ => rfl⟩

/-- C10: `+= s` and `-= s` with a plain scalar change only the value (by
`+s` resp. `-s`) and leave every derivative entry exactly unchanged. -/
theorem c10_scalar_plus_minus_keep_gradient {K : Type} [Field K] {N : ℕ}
    (a : AD K N) (s : K) :
    ((a.addAssignS s).x = a.x + s ∧ ∀ i : Fin N, (a.addAssignS s).dx i = a.dx i) ∧
      (a.subAssignS s).x = a.x - s ∧ ∀ i : Fin N, (a.subAssignS s).dx i = a.dx i :=
  ⟨⟨rfl, fun _ => rfl⟩, rfl, fun _ => rfl⟩

/-- C8: each mixed (Scalar, AD) / (AD, Scalar) operator overload of
src/diff.h agrees, in value and in every derivative entry, with first
promoting the scalar through the `AD(double)` constructor (zero gradient)
and then applying the (AD, AD) overload; for the division cases the junk
value convention of fields (`x / 0 = 0`) makes the equality hold even at a
zero divisor, so the claim's exclusion of division by zero is not needed. -/
theorem c8_mixed_operands_agree_with_promotion {K : Type} [Field K] {N : ℕ}
    (s : K) (a : AD K N) :
    AD.addSD s a = AD.addDD (AD.ofScalar s) a ∧
    AD.addDS a s = AD.addDD a (AD.ofScalar s) ∧
    AD.subSD s a = AD.subDD (AD.ofScalar s) a ∧
    AD.subDS a s = AD.subDD a (AD.ofScalar s) ∧
    AD.mulSD s a = AD.mulDD (AD.ofScalar s) a ∧
    AD.mulDS a s = AD.mulDD a (AD.ofScalar s) ∧
    AD.divSD s a = AD.divDD (AD.ofScalar s) a ∧
    AD.divDS a s = AD.divDD a (AD.ofScalar s) := by
  have hDS : AD.divDS a s = AD.divDD a (AD.ofScalar s) := by
    refine AD.ext rfl (funext fun j => ?_)
    simp only [AD.divDS, AD.divDD, AD.ofScalar]
    rcases eq_or_ne s 0 with h | h
    · simp [h]
    · rw [mul_zero, sub_zero, mul_div_mul_right _ _ h]
  refine ⟨?_, ?_, ?_, ?_, ?_, ?_, ?_, hDS⟩ <;>
    refine AD.ext ?_ (funext fun j => ?_) <;>
    simp [AD.addSD, AD.addDS, AD.addDD, AD.subSD, AD.subDS, AD.subDD,
      AD.mulSD, AD.mulDS, AD.mulDD, AD.divSD, AD.divDD, AD.ofScalar]

/-- C2 (evaluation at the failing input): `a *= b` with
a = (x = 2, dx = [1, 0]) and b = (x = 3, dx = [0, 1]) stores
derivative(1) = da(1)·b + (a·b)·db(1) = 0·3 + 6·1 = 6, because `x_` is
overwritten before the derivative loop runs; the product rule over the
pre-assignment values (the claim) gives 0·3 + 2·1 = 2. -/
theorem c2_mul_assign_eval_at_failing_input :
    (AD.mulAssign (⟨2, ![1, 0]⟩ : AD ℚ 2) ⟨3, ![0, 1]⟩).x = 6 ∧
      (AD.mulAssign (⟨2, ![1, 0]⟩ : AD ℚ 2) ⟨3, ![0, 1]⟩).dx 0 = 3 ∧
      (AD.mulAssign (⟨2, ![1, 0]⟩ : AD ℚ 2) ⟨3, ![0, 1]⟩).dx 1 = 6 := by
  refine ⟨by norm_num [AD.mulAssign], by norm_num [AD.mulAssign],
    by norm_num [AD.mulAssign]⟩

/-- C3 (evaluation at the failing input): `a /= b` with
a = (x = 1, dx = [1, 0]) and b = (x = 2, dx = [0, 1]) stores
derivative(1) = (0·2 − (1/2)·1)/4 = −1/8, because `x_` is overwritten
before the derivative loop runs; the quotient rule over the pre-assignment
values (the claim) gives (0·2 − 1·1)/4 = −1/4. -/
theorem c3_div_assign_eval_at_failing_input :
    (AD.divAssign (⟨1, ![1, 0]⟩ : AD ℚ 2) ⟨2, ![0, 1]⟩).x = 1 / 2 ∧
      (AD.divAssign (⟨1, ![1, 0]⟩ : AD ℚ 2) ⟨2, ![0, 1]⟩).dx 0 = 1 / 2 ∧
      (AD.divAssign (⟨1, ![1, 0]⟩ : AD ℚ 2) ⟨2, ![0, 1]⟩).dx 1 = -(1 / 8) := by
  refine ⟨by norm_num [AD.divAssign], by norm_num [AD.divAssign],
    by norm_num [AD.divAssign]⟩

/-- C4 counterexample: on a dimension-1 dual number, `diff 3` with the
out-of-range index 3 does not fail — it proceeds, yielding a perfectly
ordinary state whose value is kept and in which the unchecked write
`dx_[3] = 1` landed beyond the array, and the unchecked read `dx 3`
returns it. -/
theorem c4_out_of_range_access_proceeds_counterexample :
    (ADmem.diff (⟨7, fun _ => 0⟩ : ADmem 1) 3).x = 7 ∧
      ADmem.dx (ADmem.diff (⟨7, fun _ => 0⟩ : ADmem 1) 3) 3 = 1 ∧
      ADmem.dx (ADmem.diff (⟨7, fun _ => 0⟩ : ADmem 1) 3) 0 = 0 := by
  refine ⟨rfl, by simp [ADmem.diff, ADmem.dx], by simp [ADmem.diff, ADmem.dx]⟩

/-- C4 amended: `diff` and `dx` perform no bounds check; calling `diff`
with an out-of-range index proceeds as an unchecked memory access
(undefined behaviour in C++): the value is kept, the in-range gradient is
zeroed, and the cell at the out-of-range offset is set to 1, which the
equally unchecked `dx` then reads. -/
theorem c4_out_of_range_diff_is_unchecked {N : ℕ} (a : ADmem N) (i : ℕ)
    (hi : N ≤ i) :
    (a.diff i).x = a.x ∧ ADmem.dx (a.diff i) i = 1 ∧
      ∀ j : ℕ, j < N → ADmem.dx (a.diff i) j = 0 := by
  refine ⟨rfl, by simp [ADmem.diff, ADmem.dx], fun j hj => ?_⟩
  have hji : j ≠ i := by omega
  simp [ADmem.diff, ADmem.dx, hji, hj]

/-- C4 witness: the amended statement at the concrete dimension-2 state
(x = 5, memory constantly 9) and out-of-range index 4, read back at the
in-range index 0. -/
theorem c4_out_of_range_diff_witness :
    (ADmem.diff (⟨5, fun _ => 9⟩ : ADmem 2) 4).x = 5 ∧
      ADmem.dx (ADmem.diff (⟨5, fun _ => 9⟩ : ADmem 2) 4) 4 = 1 ∧
      ADmem.dx (ADmem.diff (⟨5, fun _ => 9⟩ : ADmem 2) 4) 0 = 0 :=
  ⟨(c4_out_of_range_diff_is_unchecked ⟨5, fun _ => 9⟩ 4 (by decide)).1,
    (c4_out_of_range_diff_is_unchecked ⟨5, fun _ => 9⟩ 4 (by decide)).2.1,
    (c4_out_of_range_diff_is_unchecked ⟨5, fun _ => 9⟩ 4 (by decide)).2.2 0
      (by decide)⟩

/-- C1: for every expression formed from dual-number leaves and constants
with +, -, *, / and exp, the lazy expression-node evaluation and the
equivalent eager operator sequence agree in value and in every
derivative entry (exactly, in the real-closed model of the scalars; over
C++ doubles this is agreement up to floating-point tolerance). -/
theorem c1_lazy_and_eager_agree {K : Type} [Field K] {N : ℕ} (E : K → K)
    (e : Expr K N) :
    (e.eagerEval E).x = e.val E ∧
      ∀ i : Fin N, (e.eagerEval E).dx i = e.dx E i := by
  induction e with
  | const c => exact ⟨rfl, fun _ => rfl⟩
  | leaf a => exact ⟨rfl, fun _ => rfl⟩
  | add l r ihl ihr =>
      exact ⟨by simp [Expr.eagerEval, Expr.val, AD.addDD, ihl.1, ihr.1],
        fun i => by simp [Expr.eagerEval, Expr.dx, AD.addDD, ihl.2 i, ihr.2 i]⟩
  | sub l r ihl ihr =>
      exact ⟨by simp [Expr.eagerEval, Expr.val, AD.subDD, ihl.1, ihr.1],
        fun i => by simp [Expr.eagerEval, Expr.dx, AD.subDD, ihl.2 i, ihr.2 i]⟩
  | mul l r ihl ihr =>
      exact ⟨by simp [Expr.eagerEval, Expr.val, AD.mulDD, ihl.1, ihr.1],
        fun i => by
          simp [Expr.eagerEval, Expr.dx, AD.mulDD, ihl.1, ihr.1, ihl.2 i,
            ihr.2 i]⟩
  | div l r ihl ihr =>
      exact ⟨by simp [Expr.eagerEval, Expr.val, AD.divDD, ihl.1, ihr.1],
        fun i => by
          simp [Expr.eagerEval, Expr.dx, AD.divDD, ihl.1, ihr.1, ihl.2 i,
            ihr.2 i]⟩
  | exp u ih =>
      exact ⟨by simp [Expr.eagerEval, Expr.val, AD.expE, ih.1],
        fun i => by simp [Expr.eagerEval, Expr.dx, AD.expE, ih.1, ih.2 i]⟩

/-- The materialization loop never touches the value field. -/
lemma assign_foldl_x {K : Type} [Field K] {N : ℕ} (E : K → K) (r : Expr K N) :
    ∀ (l : List (Fin N)) (acc : AD K N),
      (l.foldl (ValExpr.assignStep E r) acc).x = acc.x := by
  intro l
  induction l with
  | nil => intro acc; rfl
  | cons i tl ih => intro acc; rw [List.foldl_cons, ih]; rfl

/-- After folding the materialization step over a list of indices, an index
holds the expression's derivative when it occurs in the list, and its
previous contents otherwise. -/
lemma assign_foldl_dx {K : Type} [Field K] {N : ℕ} (E : K → K) (r : Expr K N) :
    ∀ (l : List (Fin N)) (acc : AD K N) (j : Fin N),
      (l.foldl (ValExpr.assignStep E r) acc).dx j =
        if j ∈ l then r.dx E j else acc.dx j := by
  intro l
  induction l with
  | nil => intro acc j; simp
  | cons i tl ih =>
      intro acc j
      rw [List.foldl_cons, ih]
      by_cases hmem : j ∈ tl
      · simp [hmem]
      · by_cases hji : j = i
        · subst hji; simp [hmem, ValExpr.assignStep]
        · simp [hmem, hji, ValExpr.assignStep, Function.update_apply]

/-- C6: binding an expression tree to a named variable (ValExpr assignment
or construction from an expression) stores a dual number whose value is
the tree's `val()` and whose every derivative entry is the tree's `dx(i)`,
whatever the variable previously held. -/
theorem c6_materialization_stores_value_and_gradient {K : Type} [Field K]
    {N : ℕ} (E : K → K) (t : AD K N) (r : Expr K N) :
    (ValExpr.assign E t r).x = r.val E ∧
      ∀ i : Fin N, (ValExpr.assign E t r).dx i = r.dx E i := by
  constructor
  · exact assign_foldl_x E r (List.finRange N) _
  · intro i
    rw [ValExpr.assign, assign_foldl_dx E r (List.finRange N) _ i,
      if_pos (List.mem_finRange i)]

/-- C5 counterexample: for the Pow node with base value -2 (derivative 1)
and constant exponent 3 (derivative 0), the code's `PowExpr::dx` does NOT
skip the logarithm term: under IEEE semantics `std::log(-2)` is NaN and
poisons the whole sum (0 · NaN = NaN), so the evaluation is a domain
failure (`none`) instead of the claimed finite value
v·du·u^(v-1) = 3·1·(-2)² = 12. -/
theorem c5_log_term_not_skipped_counterexample :
    PowExpr.dxFP (some (-2)) (some 1) (some 3) (some 0) = none ∧
      PowExpr.dxFP (some (-2)) (some 1) (some 3) (some 0) ≠
        some ((3 : ℝ) * 1 * Real.rpow (-2) (3 - 1)) := by
  have hlog : flog (some (-2 : ℝ)) = none := by
    rw [flog, Option.some_bind, if_neg (by norm_num)]
  have hmain : PowExpr.dxFP (some (-2)) (some 1) (some 3) (some 0) = none := by
    rw [PowExpr.dxFP, hlog]
    simp [fadd, fmul]
  exact ⟨hmain, by rw [hmain]; exact fun h => Option.noConfusion h⟩

/-- C5 amended: the logarithm term is evaluated unconditionally, so a
non-positive base is a domain failure even for a constant exponent; only
for a positive base value does `PowExpr::dx` with an identically-zero
exponent derivative produce v.value·u.derivative(i)·u.value^(v.value-1). -/
theorem c5_pow_const_exponent_needs_positive_base (u du v : ℝ)
    (hu : 0 < u) :
    PowExpr.dxFP (some u) (some du) (some v) (some 0) =
      some (v * du * Real.rpow u (v - 1)) := by
  have hlog : flog (some u) = some (Real.log u) := by
    rw [flog, Option.some_bind, if_pos hu]
  have hp1 : fpow (some u) (some v) = some (Real.rpow u v) := by
    rw [fpow, Option.some_bind, Option.some_bind, if_pos hu]
  have hp2 : fpow (some u) (fsub (some v) (some 1)) =
      some (Real.rpow u (v - 1)) := by
    have : fsub (some v) (some (1 : ℝ)) = some (v - 1) := rfl
    rw [this, fpow, Option.some_bind, Option.some_bind, if_pos hu]
  rw [PowExpr.dxFP, hlog, hp1, hp2]
  simp [fadd, fmul]

/-- C5 witness: the amended statement at base value 2 (derivative 1) and
constant exponent 3. -/
theorem c5_pow_const_exponent_witness :
    PowExpr.dxFP (some 2) (some 1) (some 3) (some 0) =
      some ((3 : ℝ) * 1 * Real.rpow 2 (3 - 1)) :=
  c5_pow_const_exponent_needs_positive_base 2 1 3 two_pos

end DiffAD
